import Mathlib

/-!
Shallow embedding of the mpf repository fragment:
  * `src/mpf/platforms/pololu_maestro.py` — the Pololu Maestro servo
    wire-protocol codec (`servo_go_to_position`, `set_speed`,
    `set_acceleration`);
  * `src/mpf/devices/switch.py` — the `Switch` device (construction,
    duplicate-number check, polarity inversion, activation-event
    registration).

Python integers are modelled as `Nat` (the values fed to the codec are
non-negative machine quantities); Python strings used as event names are
modelled as `List Char` so that `str.split` can be modelled faithfully;
a Python function that can raise is modelled with `Option`/`Except`.
A written serial frame is modelled as the list of byte values
(`chr` codepoints) in the order they are concatenated into the command
string passed to `serial.write`.
-/

namespace PololuMaestro

/-- The two header bytes `chr(0xaa) + chr(0xc)` set in
`HardwarePlatform.__init__` (`self.cmd_header`). -/
def cmd_header : List Nat := [0xaa, 0x0c]

/-- The `pololu_maestro` configuration section fields used by
`servo_go_to_position`: `config['servo_min']` and `config['servo_max']`. -/
structure Config where
  servo_min : Nat
  servo_max : Nat
deriving DecidableEq, Repr

/-- Model of `HardwarePlatform.servo_go_to_position(self, number, position)`:
clamps `position` to `servo_min` from below when `servo_min > 0`, then to
`servo_max` from above when `servo_max > 0`, splits the result into
`lsb = position & 0x7f` and `msb = (position >> 7) & 0x7f`, and writes
`cmd_header + chr(0x04) + chr(number) + chr(lsb) + chr(msb)`.
The returned list is the byte sequence written. -/
def servo_go_to_position (cfg : Config) (number position : Nat) : List Nat :=
  let position := if 0 < cfg.servo_min ∧ position < cfg.servo_min then cfg.servo_min else position
  let position := if 0 < cfg.servo_max ∧ cfg.servo_max < position then cfg.servo_max else position
  let lsb := position &&& 0x7f
  let msb := (position >>> 7) &&& 0x7f
  cmd_header ++ [0x04, number, lsb, msb]

/-- The clamping step of `servo_go_to_position` on its own (lines 57–65 of
the source), used to speak about the "post-clamp value". -/
def servo_clamp (cfg : Config) (position : Nat) : Nat :=
  let p := if 0 < cfg.servo_min ∧ position < cfg.servo_min then cfg.servo_min else position
  if 0 < cfg.servo_max ∧ cfg.servo_max < p then cfg.servo_max else p

/-- Model of `HardwarePlatform.set_speed(self, number, speed)`: no clamping;
`lsb = speed & 0x7f`, `msb = (speed >> 7) & 0x7f`, frame
`cmd_header + chr(0x07) + chr(number) + chr(lsb) + chr(msb)`. -/
def set_speed (number speed : Nat) : List Nat :=
  let lsb := speed &&& 0x7f
  let msb := (speed >>> 7) &&& 0x7f
  cmd_header ++ [0x07, number, lsb, msb]

/-- Model of `HardwarePlatform.set_acceleration(self, number, accel)`: the source
computes `lsb = accel & 0x7f` and `msb = (accel >> 7) & 0x7f`, but the
command line reads `chr(chan)` where `chan` is an undefined name
(the parameter is `number`), so in Python every call raises
`NameError` before anything is written.  Modelled as `Except`:
the error value records the exception. -/
def set_acceleration (number accel : Nat) : Except String (List Nat) :=
  let _lsb := accel &&& 0x7f
  let _msb := (accel >>> 7) &&& 0x7f
  let _ := number
  Except.error "NameError: name chan is not defined"

end PololuMaestro

namespace SwitchDevice

/-- The fields of a `Switch` object that `Switch.__init__` assigns
(lines 32–44 of `src/mpf/devices/switch.py`).  `recycle_secs` is a Python
float (`ignore_window_ms / 1000.0`), modelled as `Rat`. -/
structure SwitchState where
  state : Nat
  hw_state : Nat
  invert : Nat
  recycle_secs : Rat
  recycle_clear_time : Nat
  recycle_jitter_count : Nat
deriving DecidableEq, Repr

/-- Result of running `Switch.__init__(machine, name)`: the field values it
assigns plus the list of names passed to
`machine.switch_controller.register_switch` during construction. -/
structure InitResult where
  switch : SwitchState
  registered_names : List String
deriving DecidableEq, Repr

/-- Model of `Switch.__init__`: sets `state = 0`, `hw_state = 0`, `invert = 0`,
`recycle_secs = 0`, `recycle_clear_time = 0`, `recycle_jitter_count = 0`
and calls `self.machine.switch_controller.register_switch(name)`. -/
def Switch.init (name : String) : InitResult :=
  { switch := { state := 0, hw_state := 0, invert := 0, recycle_secs := 0,
                recycle_clear_time := 0, recycle_jitter_count := 0 },
    registered_names := [name] }

/-- The data of one configured switch that
`Switch._check_duplicate_switch_numbers` reads: `switch.platform`
(platform identity, modelled as a `Nat` id), `switch.hw_switch.number`,
and the switch itself for the error message (its name stands in for
Python `format`-ing the object). -/
structure SwitchEntry where
  platform : Nat
  number : Nat
  name : String
deriving DecidableEq, Repr

/-- The key `(switch.platform, switch.hw_switch.number)` formed on line 61
of the source. -/
def switchKey (s : SwitchEntry) : Nat × Nat := (s.platform, s.number)

/-- The loop of `Switch._check_duplicate_switch_numbers`: walk the
switches keeping the `check_set` of keys seen so far; raise
`AssertionError` when a key repeats, else add it. -/
def checkDupLoop : List SwitchEntry → List (Nat × Nat) → Except String Unit
  | [], _ => Except.ok ()
  | s :: rest, check_set =>
    if switchKey s ∈ check_set then
      Except.error ("Duplicate switch number " ++ toString s.number
        ++ " for switch " ++ s.name)
    else
      checkDupLoop rest (switchKey s :: check_set)

/-- Model of `Switch._check_duplicate_switch_numbers(machine)`: iterates
`machine.switches` with an initially empty `check_set`. -/
def check_duplicate_switch_numbers (switches : List SwitchEntry) : Except String Unit :=
  checkDupLoop switches []

/-- The event name `Switch.device_class_init` registers
`_check_duplicate_switch_numbers` under: the fixed startup checkpoint
`"init_phase_4"`. -/
def device_class_init_checkpoint : String := "init_phase_4"

/-- Python `event_str.split("|")` for the single-character separator
`'|'`, on the event name modelled as `List Char`: the list of chunks
between occurrences of `'|'` (a string with no `'|'` splits into the
one-element list holding it). -/
def splitPipe : List Char → List (List Char)
  | [] => [[]]
  | c :: cs =>
    match splitPipe cs with
    | [] => [[]]
    | p :: ps => if c = '|' then [] :: p :: ps else (c :: p) :: ps

/-- Modelled from the spec: `Util.string_to_ms` (in
`mpf/core/utility_functions.py`, not part of this source fragment) parses
the inline delay suffix of an event name as a count of milliseconds
("`\"event_name|250\"` meaning fire 250ms after the transition"), i.e. it
reads the decimal digits of the suffix. -/
def string_to_ms (s : List Char) : Nat :=
  s.foldl (fun acc c => acc * 10 + (c.toNat - '0'.toNat)) 0

/-- A handler registration made through
`machine.switch_controller.add_switch_handler` by
`Switch._create_activation_event`: the event name posted by the callback,
the trigger `state`, and the settle time `ms`. -/
structure Registration where
  event : List Char
  state : Nat
  ms : Nat
deriving DecidableEq, Repr

/-- Model of `Switch._create_activation_event(event_str, state)`: when `'|'` occurs
in `event_str`, Python unpacks `event_str.split("|")` into exactly two
names (`event, ev_time`) — any other number of chunks raises
`ValueError`, modelled as `none`; otherwise `event = event_str`, `ms = 0`. -/
def create_activation_event (event_str : List Char) (state : Nat) : Option Registration :=
  match splitPipe event_str with
  | [e] => some { event := e, state := state, ms := 0 }
  | [e, t] => some { event := e, state := state, ms := string_to_ms t }
  | _ => none

/-- Python `template.replace('%', tag)` on event-name templates:
every `'%'` character is replaced by the tag/switch name. -/
def replacePercent (template tag : List Char) : List Char :=
  template.flatMap (fun c => if c = '%' then tag else [c])

/-- Modelled from the spec: `Util.string_to_lowercase_list` (in
`mpf/core/utility_functions.py`, not part of this source fragment) turns
the configured value into a list of lowercased event names; the
configuration field is modelled as already being a list of names, so only
the lowercasing remains. -/
def string_to_lowercase_list (l : List (List Char)) : List (List Char) :=
  l.map (List.map Char.toLower)

/-- The `machine.config['mpf']` fields read by `Switch._initialize`. -/
structure MpfConfig where
  auto_create_switch_events : Bool
  switch_event_active : List Char
  switch_event_inactive : List Char
  switch_tag_event : List Char
deriving DecidableEq, Repr

/-- Python `str.upper()` on a name modelled as `List Char`. -/
def upperChars (s : List Char) : List Char :=
  s.map Char.toUpper

/-- The per-switch `self.config` fields read by the modelled part of
`Switch._initialize` (`type`, `ignore_window_ms`, the two event lists),
plus `self.tags`. -/
structure SwitchConfigSection where
  type : List Char
  ignore_window_ms : Nat
  events_when_activated : List (List Char)
  events_when_deactivated : List (List Char)
  tags : List (List Char)
deriving DecidableEq, Repr

/-- The body of the `for tag in self.tags` loop in `Switch._initialize`
(lines 115–124): three `_create_activation_event` calls — the tag template
with `'%'` replaced by the tag at state 1, the same name plus `"_active"`
at state 1, and the same name plus `"_inactive"` at state 0. -/
def tagRegistrations (switch_tag_event tag : List Char) : List (Option Registration) :=
  [create_activation_event (replacePercent switch_tag_event tag) 1,
   create_activation_event (replacePercent switch_tag_event tag ++ "_active".toList) 1,
   create_activation_event (replacePercent switch_tag_event tag ++ "_inactive".toList) 0]

/-- Model of `Switch._initialize` (the parts acting on the modelled state): sets
`invert = 1` when `config['type'].upper() == 'NC'`, sets
`recycle_secs = ignore_window_ms / 1000.0`, then performs the
activation-event registrations in source order: the two auto switch
events (when enabled), three per tag, then the per-switch activated and
deactivated event lists.  Returns the updated state and the registrations
attempted (each `none` marking a `_create_activation_event` call that
raises). -/
def Switch.initializeModel (st : SwitchState) (mpf : MpfConfig)
    (cfg : SwitchConfigSection) (name : List Char) :
    SwitchState × List (Option Registration) :=
  let st := if upperChars cfg.type = "NC".toList then { st with invert := 1 } else st
  let st := { st with recycle_secs := (cfg.ignore_window_ms : Rat) / 1000 }
  let autoEvents :=
    if mpf.auto_create_switch_events then
      [create_activation_event (replacePercent mpf.switch_event_active name) 1,
       create_activation_event (replacePercent mpf.switch_event_inactive name) 0]
    else []
  let tagEvents := cfg.tags.flatMap (tagRegistrations mpf.switch_tag_event)
  let activatedEvents := (string_to_lowercase_list cfg.events_when_activated).map
    (fun e => create_activation_event e 1)
  let deactivatedEvents := (string_to_lowercase_list cfg.events_when_deactivated).map
    (fun e => create_activation_event e 0)
  (st, autoEvents ++ tagEvents ++ activatedEvents ++ deactivatedEvents)

/-- Helper: splitting never yields the empty list of chunks. -/
theorem splitPipe_ne_nil (l : List Char) : splitPipe l ≠ [] := by
  cases l with
  | nil => simp [splitPipe]
  | cons c cs =>
    rcases h : splitPipe cs with _ | ⟨p, ps⟩
    · simp [splitPipe, h]
    · by_cases hc : c = '|' <;> simp [splitPipe, h, hc]

/-- Helper: the number of chunks is the number of pipe characters plus
one. -/
theorem length_splitPipe (l : List Char) :
    (splitPipe l).length = l.count '|' + 1 := by
  induction l with
  | nil => simp [splitPipe]
  | cons c cs ih =>
    rcases h : splitPipe cs with _ | ⟨p, ps⟩
    · exact absurd h (splitPipe_ne_nil cs)
    · rw [h] at ih
      simp only [List.length_cons] at ih
      by_cases hc : c = '|' <;>
        simp [splitPipe, h, hc, List.count_cons] <;> omega

/-- Helper: a name with no pipe splits into the single chunk holding the
whole name. -/
theorem splitPipe_eq_single (l : List Char) (h : '|' ∉ l) : splitPipe l = [l] := by
  induction l with
  | nil => rfl
  | cons c cs ih =>
    have hc : ¬(c = '|') := fun e => h (by simp [e])
    have hcs : '|' ∉ cs := fun m => h (List.mem_cons_of_mem c m)
    simp [splitPipe, ih hcs, hc]

/-- Helper: a name with exactly one pipe splits into the text before the
pipe and the text after it. -/
theorem splitPipe_eq_pair (l : List Char) (h : l.count '|' = 1) :
    splitPipe l =
      [l.takeWhile (fun c => c != '|'), (l.dropWhile (fun c => c != '|')).tail] := by
  induction l with
  | nil => simp at h
  | cons c cs ih =>
    by_cases hc : c = '|'
    · subst hc
      have hcs : cs.count '|' = 0 := by
        simp [List.count_cons] at h
        omega
      have hnotin : '|' ∉ cs := by rwa [← List.count_eq_zero]
      simp [splitPipe, splitPipe_eq_single cs hnotin, List.takeWhile_cons,
        List.dropWhile_cons]
    · have hcs : cs.count '|' = 1 := by
        simp [List.count_cons, hc] at h
        omega
      simp [splitPipe, ih hcs, hc, List.takeWhile_cons, List.dropWhile_cons]

/-- Helper: the duplicate-check loop raises exactly when the remaining
switches repeat a key among themselves or hit a key already seen. -/
theorem checkDupLoop_error_iff (l : List SwitchEntry) (seen : List (Nat × Nat)) :
    (∃ msg, checkDupLoop l seen = Except.error msg) ↔
      ¬(l.Pairwise (fun a b => switchKey a ≠ switchKey b) ∧
        ∀ s ∈ l, switchKey s ∉ seen) := by
  induction l generalizing seen with
  | nil => simp [checkDupLoop]
  | cons s rest ih =>
    by_cases hmem : switchKey s ∈ seen
    · simp only [checkDupLoop, if_pos hmem]
      constructor
      · rintro - hcon
        exact (hcon.2 s (List.mem_cons_self s rest)) hmem
      · intro _
        exact ⟨_, rfl⟩
    · simp only [checkDupLoop, if_neg hmem]
      rw [ih]
      have key_iff : (rest.Pairwise (fun a b => switchKey a ≠ switchKey b) ∧
            ∀ x ∈ rest, switchKey x ∉ switchKey s :: seen) ↔
          ((s :: rest).Pairwise (fun a b => switchKey a ≠ switchKey b) ∧
            ∀ x ∈ s :: rest, switchKey x ∉ seen) := by
        rw [List.forall_mem_cons, List.pairwise_cons]
        simp only [List.mem_cons, not_or]
        constructor
        · rintro ⟨hpw, hall⟩
          exact ⟨⟨fun x hx he => (hall x hx).1 he.symm, hpw⟩,
                 hmem, fun x hx => (hall x hx).2⟩
        · rintro ⟨⟨hhd, hpw⟩, -, hall⟩
          exact ⟨hpw, fun x hx => ⟨fun he => hhd x hx he.symm, hall x hx⟩⟩
      exact not_congr key_iff

end SwitchDevice


namespace PololuMaestro

/-- Helper: `n & 0x7f` is `n` modulo `2^7`. -/
theorem land_127_eq_mod (n : Nat) : n &&& 0x7f = n % 128 := by
  have h := Nat.and_pow_two_sub_one_eq_mod n 7
  norm_num at h
  exact h

/-- Helper: `n >> 7` is division by `2^7`. -/
theorem shiftRight_7_eq_div (n : Nat) : n >>> 7 = n / 128 := by
  have h := Nat.shiftRight_eq_div_pow n 7
  norm_num at h
  exact h

/-- Helper: the position command is the fixed frame built from the
post-clamp value. -/
theorem servo_go_to_position_eq_clamp (cfg : Config) (n p : Nat) :
    servo_go_to_position cfg n p =
      cmd_header ++ [0x04, n, servo_clamp cfg p &&& 0x7f,
                     (servo_clamp cfg p >>> 7) &&& 0x7f] := rfl

/-- Helper: with the bounds ordered (or the max unset), a request below a
configured positive min clamps to the min. -/
theorem servo_clamp_of_lt_min (cfg : Config) (p : Nat)
    (hord : cfg.servo_min ≤ cfg.servo_max ∨ cfg.servo_max = 0)
    (hmin : 0 < cfg.servo_min) (hp : p < cfg.servo_min) :
    servo_clamp cfg p = cfg.servo_min := by
  simp only [servo_clamp]
  split_ifs <;> omega

/-- Helper: a request above a configured positive max clamps to the max. -/
theorem servo_clamp_of_gt_max (cfg : Config) (p : Nat)
    (hmax : 0 < cfg.servo_max) (hp : cfg.servo_max < p) :
    servo_clamp cfg p = cfg.servo_max := by
  simp only [servo_clamp]
  split_ifs <;> omega

/-- Helper: a value already inside the configured bounds is not moved by
the clamp. -/
theorem servo_clamp_id (cfg : Config) (p : Nat)
    (hmin : cfg.servo_min = 0 ∨ cfg.servo_min ≤ p)
    (hmax : cfg.servo_max = 0 ∨ p ≤ cfg.servo_max) :
    servo_clamp cfg p = p := by
  simp only [servo_clamp]
  split_ifs <;> omega

end PololuMaestro

namespace PololuMaestro

/-- C1: for every channel and every requested position,
`servo_go_to_position` writes exactly the 6-byte frame consisting of the
2-byte header `0xaa 0x0c`, the position opcode `0x04`, the channel
number, and the post-clamp value split little-endian into a low 7-bit
byte (`value mod 128`) and a high 7-bit byte (`value div 128 mod 128`);
in particular channel 3, value 6000 gives low byte 112 and high byte 46
with no extra bytes. -/
theorem servo_frame_encoding (cfg : Config) (number position : Nat) :
    servo_go_to_position cfg number position =
      [0xaa, 0x0c, 0x04, number,
       servo_clamp cfg position % 128, servo_clamp cfg position / 128 % 128] ∧
    servo_go_to_position ⟨3000, 9000⟩ 3 6000 = [0xaa, 0x0c, 0x04, 3, 112, 46] := by
  constructor
  · rw [servo_go_to_position_eq_clamp, land_127_eq_mod,
      land_127_eq_mod, shiftRight_7_eq_div]
    rfl
  · decide

/-- C2 counterexample: the claim "when `servo_min` is configured positive
and the request is below it, the encoded value is `servo_min`" fails when
`servo_min > servo_max > 0`: with `servo_min = 9000`, `servo_max = 3000`
and request 1000, the code first raises the position to 9000 and then
lowers it to the max, so the written frame carries the bytes of 3000
(`56`, `23`), not those of 9000 (`40`, `70`). -/
theorem servo_clamp_min_counterexample :
    0 < (9000 : Nat) ∧ (1000 : Nat) < 9000 ∧
    servo_go_to_position ⟨9000, 3000⟩ 0 1000 = [0xaa, 0x0c, 0x04, 0, 56, 23] ∧
    servo_go_to_position ⟨9000, 3000⟩ 0 1000 ≠ [0xaa, 0x0c, 0x04, 0, 40, 70] := by
  decide

/-- C2 (amended): assuming the configured bounds are ordered
(`servo_min ≤ servo_max`, or `servo_max` unset), `servo_go_to_position`
clamps the request into the configured range: a request below a positive
`servo_min` is encoded as `servo_min`, a request above a positive
`servo_max` is encoded as `servo_max`, and a request inside the range (a
bound of 0 applying no clamp on that side) is encoded unchanged. -/
theorem servo_clamp_amended (cfg : Config) (n p : Nat)
    (hord : cfg.servo_min ≤ cfg.servo_max ∨ cfg.servo_max = 0) :
    (0 < cfg.servo_min → p < cfg.servo_min →
      servo_go_to_position cfg n p = servo_go_to_position cfg n cfg.servo_min) ∧
    (0 < cfg.servo_max → cfg.servo_max < p →
      servo_go_to_position cfg n p = servo_go_to_position cfg n cfg.servo_max) ∧
    ((cfg.servo_min = 0 ∨ cfg.servo_min ≤ p) → (cfg.servo_max = 0 ∨ p ≤ cfg.servo_max) →
      servo_go_to_position cfg n p =
        cmd_header ++ [0x04, n, p &&& 0x7f, (p >>> 7) &&& 0x7f]) := by
  refine ⟨fun hmin hp => ?_, fun hmax hp => ?_, fun hmin hmax => ?_⟩
  · rw [servo_go_to_position_eq_clamp, servo_go_to_position_eq_clamp,
      servo_clamp_of_lt_min cfg p hord hmin hp,
      servo_clamp_id cfg cfg.servo_min (Or.inr le_rfl) (by omega)]
  · rw [servo_go_to_position_eq_clamp, servo_go_to_position_eq_clamp,
      servo_clamp_of_gt_max cfg p hmax hp,
      servo_clamp_id cfg cfg.servo_max (by omega) (Or.inr le_rfl)]
  · rw [servo_go_to_position_eq_clamp, servo_clamp_id cfg p hmin hmax]

/-- C2 witness: with `servo_min = 3000`, `servo_max = 9000`, a request of
1000 is encoded as 3000, a request of 15000 as 9000, and a request of
5000 unchanged. -/
theorem servo_clamp_amended_witness :
    servo_go_to_position ⟨3000, 9000⟩ 3 1000 = servo_go_to_position ⟨3000, 9000⟩ 3 3000 ∧
    servo_go_to_position ⟨3000, 9000⟩ 3 15000 = servo_go_to_position ⟨3000, 9000⟩ 3 9000 ∧
    servo_go_to_position ⟨3000, 9000⟩ 3 5000 =
      cmd_header ++ [0x04, 3, 5000 &&& 0x7f, (5000 >>> 7) &&& 0x7f] :=
  ⟨(servo_clamp_amended ⟨3000, 9000⟩ 3 1000 (by decide)).1 (by decide) (by decide),
   (servo_clamp_amended ⟨3000, 9000⟩ 3 15000 (by decide)).2.1 (by decide) (by decide),
   (servo_clamp_amended ⟨3000, 9000⟩ 3 5000 (by decide)).2.2 (by decide) (by decide)⟩

/-- C3: the claim says `set_acceleration` writes the header, the `0x09`
opcode, the channel it was called with and the two 7-bit value bytes; in
the source the command string instead references the undefined name
`chan`, so every call raises `NameError` and no frame is written — the
code contradicts its own docstring and the shape of the sibling
commands. -/
theorem set_acceleration_raises (number accel : Nat) :
    set_acceleration number accel =
      Except.error "NameError: name chan is not defined" := rfl

/-- C8: the encoders only keep the low 14 bits of the value: the frame
written by `set_speed`, and the value bytes written by
`servo_go_to_position` for the post-clamp value, are those of the value
reduced modulo `2^14 = 16384` — larger values wrap silently. -/
theorem value_bytes_wrap_mod_16384 (cfg : Config) (n v p : Nat) :
    set_speed n v = set_speed n (v % 16384) ∧
    servo_go_to_position cfg n p =
      cmd_header ++ [0x04, n, (servo_clamp cfg p % 16384) &&& 0x7f,
                     ((servo_clamp cfg p % 16384) >>> 7) &&& 0x7f] := by
  constructor
  · simp only [set_speed, land_127_eq_mod, shiftRight_7_eq_div, cmd_header,
      List.cons_append, List.nil_append, List.cons.injEq, and_true, true_and]
    constructor <;> omega
  · rw [servo_go_to_position_eq_clamp]
    simp only [land_127_eq_mod, shiftRight_7_eq_div, cmd_header,
      List.cons_append, List.nil_append, List.cons.injEq, and_true, true_and]
    constructor <;> omega

end PololuMaestro

namespace SwitchDevice

/-- C4: the duplicate-number check over all configured switches raises if
and only if two distinct switches share the same
(platform, hardware number) key — in particular two switches that share a
number on different platforms never trigger it. -/
theorem check_duplicate_error_iff (switches : List SwitchEntry) :
    (∃ msg, check_duplicate_switch_numbers switches = Except.error msg) ↔
      ∃ i j : Fin switches.length, i < j ∧
        switchKey (switches.get i) = switchKey (switches.get j) := by
  rw [check_duplicate_switch_numbers, checkDupLoop_error_iff]
  simp only [List.not_mem_nil, not_false_iff, implies_true, and_true]
  rw [List.pairwise_iff_get]
  push_neg
  simp only [ne_eq, not_not]

/-- C9: a freshly constructed switch has logical state 0, hardware state
0, invert 0, recycle seconds 0, recycle clear time 0 and jitter count 0,
and its name is registered with the switch controller during
construction. -/
theorem switch_init_all_zero (name : String) :
    (Switch.init name).switch.state = 0 ∧
    (Switch.init name).switch.hw_state = 0 ∧
    (Switch.init name).switch.invert = 0 ∧
    (Switch.init name).switch.recycle_secs = 0 ∧
    (Switch.init name).switch.recycle_clear_time = 0 ∧
    (Switch.init name).switch.recycle_jitter_count = 0 ∧
    name ∈ (Switch.init name).registered_names := by
  refine ⟨rfl, rfl, rfl, rfl, rfl, rfl, ?_⟩
  simp [Switch.init]

/-- C5: a switch whose configured type is NC gets invert 1 from
initialization, and a switch whose configured type is NO keeps the
invert 0 it was constructed with. -/
theorem switch_invert_from_polarity (mpf : MpfConfig) (cfg : SwitchConfigSection)
    (name : List Char) (nm : String) :
    (cfg.type = "NC".toList →
      (Switch.initializeModel (Switch.init nm).switch mpf cfg name).1.invert = 1) ∧
    (cfg.type = "NO".toList →
      (Switch.initializeModel (Switch.init nm).switch mpf cfg name).1.invert = 0) := by
  constructor
  · intro h
    have hup : upperChars cfg.type = "NC".toList := by rw [h]; decide
    simp [Switch.initializeModel, hup]
  · intro h
    have hne : ¬(upperChars cfg.type = ['N', 'C']) := by rw [h]; decide
    simp [Switch.initializeModel, hne, Switch.init]

/-- C5 witness: concrete NC and NO configurations. -/
theorem switch_invert_from_polarity_witness :
    ((Switch.initializeModel (Switch.init "s").switch ⟨true, [], [], []⟩
        ⟨"NC".toList, 0, [], [], []⟩ []).1.invert = 1) ∧
    ((Switch.initializeModel (Switch.init "s").switch ⟨true, [], [], []⟩
        ⟨"NO".toList, 0, [], [], []⟩ []).1.invert = 0) :=
  ⟨(switch_invert_from_polarity ⟨true, [], [], []⟩ ⟨"NC".toList, 0, [], [], []⟩
      [] "s").1 rfl,
   (switch_invert_from_polarity ⟨true, [], [], []⟩ ⟨"NO".toList, 0, [], [], []⟩
      [] "s").2 rfl⟩

/-- C6: an activation event name with exactly one inline delay suffix
registers the text before the pipe as the event name and the parsed
suffix as the settle time in milliseconds; a name with no pipe registers
the whole name with settle time 0. -/
theorem activation_event_delay_suffix (l : List Char) (st : Nat) :
    (l.count '|' = 1 →
      create_activation_event l st =
        some { event := l.takeWhile (fun c => c != '|'), state := st,
               ms := string_to_ms ((l.dropWhile (fun c => c != '|')).tail) }) ∧
    ('|' ∉ l →
      create_activation_event l st = some { event := l, state := st, ms := 0 }) := by
  constructor
  · intro h
    simp only [create_activation_event, splitPipe_eq_pair l h]
  · intro h
    simp only [create_activation_event, splitPipe_eq_single l h]

/-- C6 witness: the event string with suffix 250 registers the bare name
with a 250 ms settle time. -/
theorem activation_event_delay_suffix_witness :
    create_activation_event "event_name|250".toList 1 =
      some { event := "event_name".toList, state := 1, ms := 250 } :=
  ((activation_event_delay_suffix "event_name|250".toList 1).1 (by decide)).trans
    (by decide)

/-- C10: an activation event name holding more than one pipe character
makes `_create_activation_event` fail during the two-way unpacking of the
split, registering nothing. -/
theorem activation_event_multi_pipe_raises (l : List Char) (st : Nat)
    (h : 1 < l.count '|') :
    create_activation_event l st = none := by
  have hlen : 2 < (splitPipe l).length := by rw [length_splitPipe]; omega
  rcases hsp : splitPipe l with _ | ⟨a, _ | ⟨b, _ | ⟨c, rest⟩⟩⟩
  · exact absurd hsp (splitPipe_ne_nil l)
  · rw [hsp] at hlen; simp at hlen
  · rw [hsp] at hlen; simp at hlen
  · simp [create_activation_event, hsp]

/-- C10 witness: a name with two pipes is rejected. -/
theorem activation_event_multi_pipe_raises_witness :
    1 < ("a|b|c".toList.count '|') ∧
    create_activation_event "a|b|c".toList 1 = none :=
  ⟨by decide, activation_event_multi_pipe_raises "a|b|c".toList 1 (by decide)⟩

end SwitchDevice

namespace SwitchDevice

/-- C7 counterexample: initializing a switch carrying the tag `t` with
tag-event template `sw_%` registers no state-0 (deactivation) handler
posting the bare tag event `sw_t` — the only state-0 per-tag handler
posts `sw_t_inactive`; so the claim that for both transitions a handler
posts "the tag-event template with the percent sign replaced by the tag
name" is false for the deactivation side. -/
theorem tag_event_counterexample :
    ((Switch.initializeModel (Switch.init "s").switch
        { auto_create_switch_events := false, switch_event_active := [],
          switch_event_inactive := [], switch_tag_event := "sw_%".toList }
        { type := "NO".toList, ignore_window_ms := 0,
          events_when_activated := [], events_when_deactivated := [],
          tags := ["t".toList] }
        "s".toList).2.all
      (fun o => o.elim true
        (fun r => !(r.state == 0 && r.event == "sw_t".toList))) = true) ∧
    some { event := "sw_t_inactive".toList, state := 0, ms := 0 }
      ∈ (Switch.initializeModel (Switch.init "s").switch
        { auto_create_switch_events := false, switch_event_active := [],
          switch_event_inactive := [], switch_tag_event := "sw_%".toList }
        { type := "NO".toList, ignore_window_ms := 0,
          events_when_activated := [], events_when_deactivated := [],
          tags := ["t".toList] }
        "s".toList).2 := by
  decide

/-- C7 (amended): for every tag carried by a switch (its substituted tag
event name containing no pipe), initialization registers three handlers:
a state-1 handler posting the tag-event template with the percent sign
replaced by the tag, a state-1 handler posting that name plus
`_active`, and a state-0 handler posting that name plus `_inactive`. -/
theorem tag_events_amended (mpf : MpfConfig) (cfg : SwitchConfigSection)
    (name tag : List Char) (st : SwitchState)
    (htag : tag ∈ cfg.tags)
    (hpipe : '|' ∉ replacePercent mpf.switch_tag_event tag) :
    some { event := replacePercent mpf.switch_tag_event tag, state := 1, ms := 0 }
        ∈ (Switch.initializeModel st mpf cfg name).2 ∧
    some { event := replacePercent mpf.switch_tag_event tag ++ "_active".toList,
           state := 1, ms := 0 } ∈ (Switch.initializeModel st mpf cfg name).2 ∧
    some { event := replacePercent mpf.switch_tag_event tag ++ "_inactive".toList,
           state := 0, ms := 0 } ∈ (Switch.initializeModel st mpf cfg name).2 := by
  have hmem : ∀ r ∈ tagRegistrations mpf.switch_tag_event tag,
      r ∈ (Switch.initializeModel st mpf cfg name).2 := by
    intro r hr
    have hfm : r ∈ cfg.tags.flatMap (tagRegistrations mpf.switch_tag_event) :=
      List.mem_flatMap.mpr ⟨tag, htag, hr⟩
    simp [Switch.initializeModel, List.mem_append, hfm]
  have hact : '|' ∉ replacePercent mpf.switch_tag_event tag ++ "_active".toList := by
    intro hm
    rcases List.mem_append.mp hm with hm | hm
    · exact hpipe hm
    · exact absurd hm (by decide)
  have hinact : '|' ∉ replacePercent mpf.switch_tag_event tag ++ "_inactive".toList := by
    intro hm
    rcases List.mem_append.mp hm with hm | hm
    · exact hpipe hm
    · exact absurd hm (by decide)
  have e1 : create_activation_event (replacePercent mpf.switch_tag_event tag) 1 =
      some { event := replacePercent mpf.switch_tag_event tag, state := 1, ms := 0 } := by
    simp only [create_activation_event, splitPipe_eq_single _ hpipe]
  have e2 : create_activation_event
        (replacePercent mpf.switch_tag_event tag ++ "_active".toList) 1 =
      some { event := replacePercent mpf.switch_tag_event tag ++ "_active".toList,
             state := 1, ms := 0 } := by
    simp only [create_activation_event, splitPipe_eq_single _ hact]
  have e3 : create_activation_event
        (replacePercent mpf.switch_tag_event tag ++ "_inactive".toList) 0 =
      some { event := replacePercent mpf.switch_tag_event tag ++ "_inactive".toList,
             state := 0, ms := 0 } := by
    simp only [create_activation_event, splitPipe_eq_single _ hinact]
  refine ⟨hmem _ ?_, hmem _ ?_, hmem _ ?_⟩
  · rw [tagRegistrations, ← e1]
    exact List.mem_cons_self _ _
  · rw [tagRegistrations, ← e2]
    exact List.mem_cons_of_mem _ (List.mem_cons_self _ _)
  · rw [tagRegistrations, ← e3]
    exact List.mem_cons_of_mem _ (List.mem_cons_of_mem _ (List.mem_cons_self _ _))

/-- C7 witness: the three per-tag registrations for tag `t` with template
`sw_%`. -/
theorem tag_events_amended_witness :
    some { event := "sw_t".toList, state := 1, ms := 0 }
        ∈ (Switch.initializeModel (Switch.init "s").switch
            ⟨true, "a%".toList, "b%".toList, "sw_%".toList⟩
            ⟨"NO".toList, 0, [], [], ["t".toList]⟩ "s".toList).2 ∧
    some { event := "sw_t_active".toList, state := 1, ms := 0 }
        ∈ (Switch.initializeModel (Switch.init "s").switch
            ⟨true, "a%".toList, "b%".toList, "sw_%".toList⟩
            ⟨"NO".toList, 0, [], [], ["t".toList]⟩ "s".toList).2 ∧
    some { event := "sw_t_inactive".toList, state := 0, ms := 0 }
        ∈ (Switch.initializeModel (Switch.init "s").switch
            ⟨true, "a%".toList, "b%".toList, "sw_%".toList⟩
            ⟨"NO".toList, 0, [], [], ["t".toList]⟩ "s".toList).2 := by
  have h := tag_events_amended ⟨true, "a%".toList, "b%".toList, "sw_%".toList⟩
    ⟨"NO".toList, 0, [], [], ["t".toList]⟩ "s".toList "t".toList
    (Switch.init "s").switch (by decide) (by decide)
  refine ⟨?_, ?_, ?_⟩
  · have := h.1
    simpa using this
  · have := h.2.1
    simpa using this
  · have := h.2.2
    simpa using this

end SwitchDevice
